import Mathlib

/-!
Shallow embedding of the voice-catalog normalization and speech-synthesis logic of
a small text-to-speech front-end (src/app.py), together with proofs of its
specified properties.

Modelling conventions:
* Python strings are lists of characters (`Str`).
* Python dicts are insertion-ordered association lists with unique keys; the
  voice catalog built by `get_voices` and the reverse map `voice_display_map`
  are modelled this way, with the exact insert/overwrite behavior of dicts.
* The remote Google provider is an explicit function argument; a call that the
  Python client would make appears in the value returned by the embedded
  function, so call counts are observable.
* A caught exception is an `Except.error` / `Option.none` value; the source
  wraps every provider interaction in a try/except that converts the exception
  into a rendered error message plus a fallback value, which is modelled by a
  total function returning the fallback together with the displayed message.
* Python floats passed through unchanged (speaking rate, pitch) are modelled
  as rationals; the source performs no arithmetic on them.
-/

namespace TTS

/-- Python strings are modelled as lists of characters. -/
abbrev Str := List Char

/-- Character list of a Lean string literal, used to write concrete `Str` values. -/
def str (s : String) : Str := s.data

/-- Helper for `pySplit`: prepend a character to the first segment
(used when the character examined is not the separator). -/
def consHead (c : Char) : List Str → List Str
  | [] => [[c]]
  | t :: ts => (c :: t) :: ts

/-- Embedding of Python `s.split(sep)` for a one-character separator `sep`:
the result has one segment per separator occurrence plus one, and is never
empty (Python: `"".split("-") == [""]`). Source: `voice_name.split("-")`
in `synthesize_speech` (src/app.py line 85). -/
def pySplit (sep : Char) : Str → List Str
  | [] => [[]]
  | c :: cs => if c = sep then [] :: pySplit sep cs else consHead c (pySplit sep cs)

/-- Embedding of Python `sep.join(segments)` for a one-character separator.
Source: `"-".join(...)` in `synthesize_speech` (src/app.py line 85). -/
def pyJoin (sep : Char) : List Str → Str
  | [] => []
  | [t] => t
  | t1 :: t2 :: ts => t1 ++ sep :: pyJoin sep (t2 :: ts)

/-- The language-code derivation of `synthesize_speech` (src/app.py line 85):
`"-".join(voice_name.split("-")[:2])`. -/
def deriveLanguageCode (voice_name : Str) : Str :=
  pyJoin '-' ((pySplit '-' voice_name).take 2)

/-- The whitespace test of Python `str.strip()` restricted to the ASCII
whitespace characters (space, tab, newline, carriage return, vertical tab,
form feed). -/
def isPySpace (c : Char) : Bool :=
  c = ' ' || c = '\t' || c = '\n' || c = '\r' || c = '\x0b' || c = '\x0c'

/-- Embedding of Python `s.strip()` (no argument): drop whitespace from both
ends. Source: `input_text.strip()` in the generate-button handler
(src/app.py line 153). -/
def pyStrip (s : Str) : Str :=
  ((s.dropWhile isPySpace).reverse.dropWhile isPySpace).reverse

/-- Embedding of Python `str.capitalize()`: first character upper-cased, the
rest lower-cased. Source: `.capitalize()` in `get_voices` (src/app.py line 63). -/
def pyCapitalize : Str → Str
  | [] => []
  | c :: cs => c.toUpper :: cs.map Char.toLower

/-- The provider's `SsmlVoiceGender` enum (google.cloud.texttospeech). -/
inductive SsmlVoiceGender where
  | SSML_VOICE_GENDER_UNSPECIFIED
  | MALE
  | FEMALE
  | NEUTRAL
deriving DecidableEq

/-- The `.name` attribute of an `SsmlVoiceGender` enumerant. -/
def enumName : SsmlVoiceGender → Str
  | .SSML_VOICE_GENDER_UNSPECIFIED => str "SSML_VOICE_GENDER_UNSPECIFIED"
  | .MALE => str "MALE"
  | .FEMALE => str "FEMALE"
  | .NEUTRAL => str "NEUTRAL"

/-- The gender word used in display labels:
`texttospeech.SsmlVoiceGender(voice.ssml_gender).name.capitalize()`
(src/app.py line 63). -/
def genderName (g : SsmlVoiceGender) : Str := pyCapitalize (enumName g)

/-- One voice of the provider's list-voices response: its unique name, its
declared language codes, and its gender enumerant. -/
structure Voice where
  name : Str
  language_codes : List Str
  ssml_gender : SsmlVoiceGender
deriving DecidableEq

/-- The first declared language code of a voice (meaningful when
`language_codes` is non-empty, which `formatVoices` requires). -/
def firstCode (v : Voice) : Str := v.language_codes.headD []

/-- The display label `f"{name} ({gender})"` built in `get_voices`
(src/app.py line 70). -/
def displayLabel (name : Str) (g : SsmlVoiceGender) : Str :=
  name ++ str " (" ++ genderName g ++ str ")"

/-- The gender-dependent tail of a display label: everything after the name. -/
def labelTail (g : SsmlVoiceGender) : Str := str " (" ++ genderName g ++ str ")"

/-- A `(name, display_name)` pair as appended to a language bucket
(src/app.py line 71). -/
abbrev VoiceEntry := Str × Str

/-- The `formatted_voices` dict: language code → ordered list of entries,
as an insertion-ordered association list with unique keys. -/
abbrev VoiceCatalog := List (Str × List VoiceEntry)

/-- The catalog entry built for one voice (src/app.py lines 61-71). -/
def mkEntry (v : Voice) : VoiceEntry := (v.name, displayLabel v.name v.ssml_gender)

/-- Append `e` to the bucket of `lang`, creating the bucket at the end of the
dict if absent — the effect of lines 66-71 of src/app.py on `formatted_voices`. -/
def insertVoice : VoiceCatalog → Str → VoiceEntry → VoiceCatalog
  | [], lang, e => [(lang, [e])]
  | b :: bs, lang, e =>
    if b.1 = lang then (b.1, b.2 ++ [e]) :: bs else b :: insertVoice bs lang e

/-- Dict lookup on the catalog (`formatted_voices[language]`). -/
def lookupLang : VoiceCatalog → Str → Option (List VoiceEntry)
  | [], _ => none
  | b :: bs, lang => if b.1 = lang then some b.2 else lookupLang bs lang

/-- The voice-processing loop of `get_voices` (src/app.py lines 60-71):
folds every voice of the response into the catalog. Returns `none` when some
voice has an empty `language_codes` list, in which case the Python
`voice.language_codes[0]` would raise `IndexError` (caught by the
surrounding try/except). -/
def formatVoices : List Voice → VoiceCatalog → Option VoiceCatalog
  | [], cat => some cat
  | v :: vs, cat =>
    match v.language_codes with
    | [] => none
    | lang :: _ => formatVoices vs (insertVoice cat lang (mkEntry v))

/-- The value produced by one (uncached) evaluation of `get_voices`: the
catalog it returns and the `st.error` message it rendered, if any. -/
structure GetVoicesResult where
  catalog : VoiceCatalog
  displayedError : Option Str
deriving DecidableEq

/-- Embedding of `get_voices` (src/app.py lines 52-75), with the provider's
`client.list_voices()` outcome passed explicitly: on a provider error, and on
the `IndexError` raised by `voice.language_codes[0]` for a voice without
language codes, the exception is caught, an error is rendered, and the empty
dict is returned; otherwise the grouped catalog is returned. The embedded
function is total: no exception escapes. -/
def get_voices (providerVoices : Except Str (List Voice)) : GetVoicesResult :=
  match providerVoices with
  | .error e =>
    { catalog := []
      displayedError := some (str "Could not fetch voices from Google API: " ++ e) }
  | .ok voices =>
    match formatVoices voices [] with
    | some cat => { catalog := cat, displayedError := none }
    | none =>
      { catalog := []
        displayedError :=
          some (str "Could not fetch voices from Google API: list index out of range") }

/-- The `AudioEncoding` enum values relevant to the client
(google.cloud.texttospeech). -/
inductive AudioEncoding where
  | AUDIO_ENCODING_UNSPECIFIED
  | LINEAR16
  | MP3
  | OGG_OPUS
deriving DecidableEq

/-- `texttospeech.VoiceSelectionParams` as constructed on src/app.py lines 83-86. -/
structure VoiceSelectionParams where
  name : Str
  language_code : Str
deriving DecidableEq

/-- `texttospeech.AudioConfig` as constructed on src/app.py lines 88-92. -/
structure AudioConfig where
  audio_encoding : AudioEncoding
  speaking_rate : ℚ
  pitch : ℚ
deriving DecidableEq

/-- The full argument of one `client.synthesize_speech` call
(src/app.py lines 94-96). -/
structure SynthRequest where
  input : Str
  voice : VoiceSelectionParams
  audio_config : AudioConfig
deriving DecidableEq

/-- The request `synthesize_speech` constructs (src/app.py lines 81-92):
raw text input, voice selection with the derived language code, MP3 audio
encoding with the given rate and pitch. -/
def mkSynthRequest (text voice_name : Str) (speaking_rate pitch : ℚ) : SynthRequest :=
  { input := text
    voice := { name := voice_name, language_code := deriveLanguageCode voice_name }
    audio_config :=
      { audio_encoding := .MP3, speaking_rate := speaking_rate, pitch := pitch } }

/-- The observable outcome of one `synthesize_speech` evaluation: the audio
returned (`none` models the Python `return None` of the except branch), the
provider calls issued, and whether an error was rendered. -/
structure SynthOutcome where
  audio : Option (List Nat)
  calls : List SynthRequest
  displayedError : Bool
deriving DecidableEq

/-- Embedding of `synthesize_speech` (src/app.py lines 78-100), with the
provider's `client.synthesize_speech` behavior passed explicitly as a
function from the request to either audio bytes or a raised error. Exactly
one call is issued; on success its `audio_content` is returned unchanged; on
a provider error the exception is caught, an error is rendered, and `None`
is returned. -/
def synthesize_speech (provider : SynthRequest → Except Str (List Nat))
    (text voice_name : Str) (speaking_rate pitch : ℚ) : SynthOutcome :=
  let req := mkSynthRequest text voice_name speaking_rate pitch
  match provider req with
  | .ok audio => { audio := some audio, calls := [req], displayedError := false }
  | .error _ => { audio := none, calls := [req], displayedError := true }

/-- What the generate-button handler renders (src/app.py lines 152-179). -/
inductive HandlerOutcome where
  | validationWarning
  | catalogUnavailable
  | played (audio : List Nat)
  | generationFailed
deriving DecidableEq

/-- Embedding of the generate-button handler (src/app.py lines 152-179):
empty/whitespace-only text short-circuits with a warning before any provider
call; an empty catalog short-circuits with an error; otherwise
`synthesize_speech` runs and its result is played (Python truthiness: a
`None` result and an empty byte string both take the failure branch). The
second component is the list of provider calls issued. -/
def generate_button (provider : SynthRequest → Except Str (List Nat))
    (input_text : Str) (available_voices : VoiceCatalog)
    (selected_voice_name : Str) (speaking_rate pitch : ℚ) :
    HandlerOutcome × List SynthRequest :=
  if pyStrip input_text = [] then (.validationWarning, [])
  else if available_voices = [] then (.catalogUnavailable, [])
  else
    let out := synthesize_speech provider input_text selected_voice_name speaking_rate pitch
    match out.audio with
    | some audio => if audio = [] then (.generationFailed, out.calls) else (.played audio, out.calls)
    | none => (.generationFailed, out.calls)

/-- Python dict assignment `d[k] = v`: overwrite in place if the key exists,
append at the end otherwise. -/
def dictInsert : List (Str × Str) → Str → Str → List (Str × Str)
  | [], k, v => [(k, v)]
  | e :: es, k, v => if e.1 = k then (k, v) :: es else e :: dictInsert es k v

/-- Python dict lookup `d[k]` (as an `Option`). -/
def dictLookup : List (Str × Str) → Str → Option Str
  | [], _ => none
  | e :: es, k => if e.1 = k then some e.2 else dictLookup es k

/-- The reverse map `voice_display_map = ⦃display: name for name, display in
voice_options⦄` (src/app.py line 118), built with dict-comprehension
semantics (left to right, later duplicate keys overwrite). -/
def voice_display_map (voice_options : List VoiceEntry) : List (Str × Str) :=
  voice_options.foldl (fun d p => dictInsert d p.2 p.1) []

/-- Modelled from the spec: the `@st.cache_data` decorator on `get_voices`
(Streamlit library behavior, not part of src/): the first call evaluates the
function and stores its return value; every later call in the same process
returns the stored value without re-evaluating. The cache cell is passed
explicitly; the Boolean records whether the provider was contacted. -/
structure CachedFetch where
  result : VoiceCatalog
  newCache : Option VoiceCatalog
  contactedProvider : Bool
deriving DecidableEq

/-- Modelled from the spec: one call to the cached `get_voices` — on a cache
hit the stored catalog is returned with no provider contact; on a miss
`get_voices` runs once and its catalog is stored. -/
def fetchCached (cache : Option VoiceCatalog)
    (providerVoices : Except Str (List Voice)) : CachedFetch :=
  match cache with
  | some c => { result := c, newCache := some c, contactedProvider := false }
  | none =>
    let r := get_voices providerVoices
    { result := r.catalog, newCache := some r.catalog, contactedProvider := true }

/-- Modelled from the spec: a sequence of calls to the cached `get_voices`,
threading the cache cell; returns the results of the calls in order and the
number of provider contacts made. -/
def fetchSeq : Option VoiceCatalog → List (Except Str (List Voice)) →
    List VoiceCatalog × Nat
  | _, [] => ([], 0)
  | cache, p :: ps =>
    let f := fetchCached cache p
    let rest := fetchSeq f.newCache ps
    (f.result :: rest.1, (if f.contactedProvider then 1 else 0) + rest.2)

/-- How one more batch of entries extends an optional bucket: an existing
bucket is extended at its end; an absent bucket is created exactly when the
batch is non-empty. Used to state the fold characterization of `formatVoices`. -/
def combineBucket : Option (List VoiceEntry) → List VoiceEntry → Option (List VoiceEntry)
  | some b, f => some (b ++ f)
  | none, f => if f = [] then none else some f

/-- Concrete provider response used to witness the catalog theorems. -/
def sampleVoices : List Voice :=
  [{ name := str "en-US-Wavenet-F", language_codes := [str "en-US"],
     ssml_gender := .FEMALE },
   { name := str "en-US-Wavenet-A", language_codes := [str "en-US"],
     ssml_gender := .MALE },
   { name := str "fr-FR-Standard-B", language_codes := [str "fr-FR", str "fr-CA"],
     ssml_gender := .MALE }]

/-- The catalog `get_voices` builds from `sampleVoices`. -/
def sampleCatalog : VoiceCatalog :=
  [(str "en-US",
    [(str "en-US-Wavenet-F", str "en-US-Wavenet-F (Female)"),
     (str "en-US-Wavenet-A", str "en-US-Wavenet-A (Male)")]),
   (str "fr-FR",
    [(str "fr-FR-Standard-B", str "fr-FR-Standard-B (Male)")])]

/-- The "en-US" bucket of `sampleCatalog`. -/
def sampleBucket : List VoiceEntry :=
  [(str "en-US-Wavenet-F", str "en-US-Wavenet-F (Female)"),
   (str "en-US-Wavenet-A", str "en-US-Wavenet-A (Male)")]

/-- A concrete provider behavior that answers every synthesis request with
the same three audio bytes, used to witness the synthesis theorems. -/
def okProvider : SynthRequest → Except Str (List Nat) :=
  fun _ => Except.ok [77, 80, 51]

end TTS

namespace TTS

theorem pySplit_ne_nil (sep : Char) (s : Str) : pySplit sep s ≠ [] := by
  cases s with
  | nil => simp [pySplit]
  | cons c cs =>
    by_cases h : c = sep
    · simp [pySplit, h]
    · simp only [pySplit, if_neg h]
      cases pySplit sep cs <;> simp [consHead]

theorem pyJoin_consHead (sep c : Char) (l : List Str) :
    pyJoin sep (consHead c l) = c :: pyJoin sep l := by
  cases l with
  | nil => rfl
  | cons t ts => cases ts <;> rfl

theorem pyJoin_pySplit (sep : Char) (s : Str) : pyJoin sep (pySplit sep s) = s := by
  induction s with
  | nil => rfl
  | cons c cs ih =>
    by_cases h : c = sep
    · simp only [pySplit, if_pos h]
      obtain ⟨t, ts, hts⟩ : ∃ t ts, pySplit sep cs = t :: ts := by
        cases hh : pySplit sep cs with
        | nil => exact absurd hh (pySplit_ne_nil sep cs)
        | cons t ts => exact ⟨t, ts, rfl⟩
      rw [hts]
      show sep :: pyJoin sep (t :: ts) = c :: cs
      rw [← hts, ih, h]
    · simp only [pySplit, if_neg h, pyJoin_consHead, ih]

/-- Claim C10: the language-code derivation is total, and for every voiceName
with fewer than two hyphen-separated segments it returns the whole voiceName
unchanged (`deriveLanguageCode` is a total function; no error is possible). -/
theorem claim_C10_derivation_total (voice_name : Str)
    (h : (pySplit '-' voice_name).length < 2) :
    deriveLanguageCode voice_name = voice_name := by
  obtain ⟨t, ts, hts⟩ : ∃ t ts, pySplit '-' voice_name = t :: ts := by
    cases hh : pySplit '-' voice_name with
    | nil => exact absurd hh (pySplit_ne_nil '-' voice_name)
    | cons t ts => exact ⟨t, ts, rfl⟩
  have hts0 : ts = [] := by
    rw [hts] at h
    simp only [List.length_cons] at h
    have hlen : ts.length = 0 := by omega
    exact List.length_eq_zero.mp hlen
  subst hts0
  have hrt := pyJoin_pySplit '-' voice_name
  rw [hts] at hrt
  unfold deriveLanguageCode
  rw [hts]
  simpa using hrt

/-- Witness for C10 at the hyphen-free voiceName "englishvoice". -/
theorem claim_C10_witness :
    (pySplit '-' (str "englishvoice")).length < 2 ∧
      deriveLanguageCode (str "englishvoice") = str "englishvoice" :=
  ⟨by decide, claim_C10_derivation_total (str "englishvoice") (by decide)⟩

/-- Claim C2: the language code sent to the provider is derived from
voiceName by joining its first two hyphen-separated segments with a hyphen
(the one request issued carries exactly that code), and for
"en-US-Wavenet-F" the derived code is exactly "en-US". -/
theorem claim_C2_language_code (provider : SynthRequest → Except Str (List Nat))
    (text voice_name : Str) (rate pitch : ℚ) :
    ((synthesize_speech provider text voice_name rate pitch).calls.map
        fun r => r.voice.language_code)
      = [pyJoin '-' ((pySplit '-' voice_name).take 2)] ∧
      deriveLanguageCode (str "en-US-Wavenet-F") = str "en-US" := by
  constructor
  · cases h : provider (mkSynthRequest text voice_name rate pitch) <;>
      (simp only [mkSynthRequest, deriveLanguageCode] at h;
       simp [synthesize_speech, mkSynthRequest, h, deriveLanguageCode])
  · decide

theorem lookupLang_insertVoice (cat : VoiceCatalog) (lang lang' : Str) (e : VoiceEntry) :
    lookupLang (insertVoice cat lang e) lang' =
      if lang' = lang then some (((lookupLang cat lang).getD []) ++ [e])
      else lookupLang cat lang' := by
  induction cat with
  | nil =>
    by_cases h : lang' = lang
    · subst h
      simp [insertVoice, lookupLang]
    · simp [insertVoice, lookupLang, h, Ne.symm h]
  | cons b bs ih =>
    obtain ⟨k, bk⟩ := b
    by_cases hb : k = lang
    · subst hb
      by_cases h : lang' = k
      · subst h
        simp [insertVoice, lookupLang]
      · simp [insertVoice, lookupLang, h, Ne.symm h]
    · by_cases h : lang' = k
      · subst h
        simp [insertVoice, lookupLang, hb, Ne.symm hb]
      · simp [insertVoice, lookupLang, hb, Ne.symm h, h, ih]

theorem insertVoice_keys_mem (cat : VoiceCatalog) (lang : Str) (e : VoiceEntry) (k : Str)
    (hk : k ∈ (insertVoice cat lang e).map Prod.fst) :
    k ∈ cat.map Prod.fst ∨ k = lang := by
  induction cat with
  | nil =>
    simp only [insertVoice, List.map_cons, List.map_nil, List.mem_singleton] at hk
    exact Or.inr hk
  | cons b bs ih =>
    by_cases hb : b.1 = lang
    · simp only [insertVoice, if_pos hb, List.map_cons, List.mem_cons] at hk
      rcases hk with h | h
      · exact Or.inl (by simp [h])
      · exact Or.inl (by simp [h])
    · simp only [insertVoice, if_neg hb, List.map_cons, List.mem_cons] at hk
      rcases hk with h | h
      · exact Or.inl (by simp [h])
      · rcases ih h with h2 | h2
        · exact Or.inl (by simp [h2])
        · exact Or.inr h2

theorem insertVoice_keys_nodup (cat : VoiceCatalog) (lang : Str) (e : VoiceEntry)
    (h : (cat.map Prod.fst).Nodup) :
    ((insertVoice cat lang e).map Prod.fst).Nodup := by
  induction cat with
  | nil => simp [insertVoice]
  | cons b bs ih =>
    by_cases hb : b.1 = lang
    · simp only [insertVoice, if_pos hb, List.map_cons] at h ⊢
      simpa using h
    · simp only [insertVoice, if_neg hb, List.map_cons, List.nodup_cons] at h ⊢
      obtain ⟨hnotin, hnd⟩ := h
      refine ⟨?_, ih hnd⟩
      intro hmem
      rcases insertVoice_keys_mem bs lang e b.1 hmem with h2 | h2
      · exact hnotin h2
      · exact hb h2

theorem formatVoices_keys_nodup (voices : List Voice) :
    ∀ cat cat', formatVoices voices cat = some cat' →
      (cat.map Prod.fst).Nodup → (cat'.map Prod.fst).Nodup := by
  induction voices with
  | nil =>
    intro cat cat' h hnd
    simp only [formatVoices, Option.some.injEq] at h
    exact h ▸ hnd
  | cons v vs ih =>
    intro cat cat' h hnd
    cases hc : v.language_codes with
    | nil => simp [formatVoices, hc] at h
    | cons l rest =>
      simp only [formatVoices, hc] at h
      exact ih _ _ h (insertVoice_keys_nodup cat l (mkEntry v) hnd)

theorem formatVoices_lookup (voices : List Voice) :
    ∀ cat : VoiceCatalog, (∀ v ∈ voices, v.language_codes ≠ []) →
      ∃ cat', formatVoices voices cat = some cat' ∧
        ∀ lang, lookupLang cat' lang =
          combineBucket (lookupLang cat lang)
            ((voices.filter fun v => firstCode v = lang).map mkEntry) := by
  induction voices with
  | nil =>
    intro cat _
    exact ⟨cat, rfl, fun lang => by
      cases hl : lookupLang cat lang <;> simp [combineBucket]⟩
  | cons v vs ih =>
    intro cat hne
    obtain ⟨l, rest, hcodes⟩ : ∃ l rest, v.language_codes = l :: rest := by
      cases hc : v.language_codes with
      | nil => exact absurd hc (hne v (List.mem_cons_self v vs))
      | cons l rest => exact ⟨l, rest, rfl⟩
    have hfc : firstCode v = l := by simp [firstCode, hcodes]
    obtain ⟨cat', h1, h2⟩ :=
      ih (insertVoice cat l (mkEntry v)) (fun u hu => hne u (List.mem_cons_of_mem v hu))
    refine ⟨cat', by simp [formatVoices, hcodes, h1], ?_⟩
    intro lang
    rw [h2 lang, lookupLang_insertVoice, List.filter_cons]
    by_cases hl : lang = l
    · subst hl
      simp only [if_pos rfl, hfc, decide_eq_true_eq, List.map_cons]
      cases hc : lookupLang cat lang <;> simp [combineBucket]
    · have : ¬ (firstCode v = lang) := by rw [hfc]; exact fun hh => hl hh.symm
      simp [hl, this]

/-- Claim C1: for every provider voice-list response (whose voices each carry
at least one language code, as `voice.language_codes[0]` demands),
`get_voices` places every voice in exactly one language bucket, keyed by the
first entry of its `language_codes`; bucket keys are unique, a bucket exists
exactly when some voice has that first code, and each bucket lists exactly
the entries of the voices with that first code, in provider response order —
no voice dropped, duplicated, or filtered. -/
theorem claim_C1_grouping (voices : List Voice)
    (h : ∀ v ∈ voices, v.language_codes ≠ []) :
    ∃ cat, formatVoices voices [] = some cat ∧
      (cat.map Prod.fst).Nodup ∧
      ∀ lang, lookupLang cat lang =
        (if (voices.filter fun v => firstCode v = lang) = [] then none
         else some ((voices.filter fun v => firstCode v = lang).map mkEntry)) := by
  obtain ⟨cat, h1, h2⟩ := formatVoices_lookup voices [] h
  refine ⟨cat, h1, formatVoices_keys_nodup voices [] cat h1 (by simp), ?_⟩
  intro lang
  rw [h2 lang]
  show combineBucket none _ = _
  by_cases hF : (voices.filter fun v => firstCode v = lang) = [] <;>
    simp [combineBucket, hF, List.map_eq_nil_iff]

/-- Witness for C1 on a concrete three-voice response spanning two languages. -/
theorem claim_C1_witness :
    (∀ v ∈ sampleVoices, v.language_codes ≠ []) ∧
      (∃ cat, formatVoices sampleVoices [] = some cat ∧
        (cat.map Prod.fst).Nodup ∧
        ∀ lang, lookupLang cat lang =
          (if (sampleVoices.filter fun v => firstCode v = lang) = [] then none
           else some ((sampleVoices.filter fun v => firstCode v = lang).map mkEntry))) :=
  ⟨by decide, claim_C1_grouping sampleVoices (by decide)⟩

/-- Claim C6: when the provider's list-voices call fails with any error,
`get_voices` returns the empty mapping and renders a descriptive error
message; the embedded function is total, so no exception escapes. -/
theorem claim_C6_fetch_failure (e : Str) :
    (get_voices (Except.error e)).catalog = [] ∧
      (get_voices (Except.error e)).displayedError
        = some (str "Could not fetch voices from Google API: " ++ e) :=
  ⟨rfl, rfl⟩

/-- Claim C9: every entry of every bucket built by `get_voices` comes from a
voice of the response whose first language code is the bucket key; the entry
stores the voice's name and the display label "name ( Gender )" where Gender
is the gender enumerant's name with only its first letter capitalized. -/
theorem claim_C9_display_label (voices : List Voice)
    (h : ∀ v ∈ voices, v.language_codes ≠ []) :
    ∃ cat, formatVoices voices [] = some cat ∧
      ∀ lang b, lookupLang cat lang = some b →
        ∀ e ∈ b, ∃ v ∈ voices, firstCode v = lang ∧
          e.1 = v.name ∧
          e.2 = v.name ++ str " (" ++ pyCapitalize (enumName v.ssml_gender) ++ str ")" := by
  obtain ⟨cat, h1, h2⟩ := formatVoices_lookup voices [] h
  refine ⟨cat, h1, ?_⟩
  intro lang b hb e he
  have h3 := h2 lang
  rw [hb] at h3
  by_cases hFe : ((voices.filter fun v => firstCode v = lang).map mkEntry) = []
  · rw [show combineBucket (lookupLang [] lang)
        ((voices.filter fun v => firstCode v = lang).map mkEntry) = none from by
      simp [lookupLang, combineBucket, hFe]] at h3
    exact absurd h3 (by simp)
  · have hbF : b = (voices.filter fun v => firstCode v = lang).map mkEntry := by
      rw [show combineBucket (lookupLang [] lang)
          ((voices.filter fun v => firstCode v = lang).map mkEntry)
            = some ((voices.filter fun v => firstCode v = lang).map mkEntry) from by
        simp [lookupLang, combineBucket, hFe]] at h3
      exact Option.some.inj h3
    subst hbF
    obtain ⟨v, hv, hve⟩ := List.mem_map.mp he
    have hv2 := List.mem_filter.mp hv
    refine ⟨v, hv2.1, by simpa using hv2.2, ?_, ?_⟩
    · rw [← hve]; rfl
    · rw [← hve]; rfl

/-- Witness for C9 on the concrete three-voice response. -/
theorem claim_C9_witness :
    (∀ v ∈ sampleVoices, v.language_codes ≠ []) ∧
      (∃ cat, formatVoices sampleVoices [] = some cat ∧
        ∀ lang b, lookupLang cat lang = some b →
          ∀ e ∈ b, ∃ v ∈ sampleVoices, firstCode v = lang ∧
            e.1 = v.name ∧
            e.2 = v.name ++ str " (" ++ pyCapitalize (enumName v.ssml_gender) ++ str ")") :=
  ⟨by decide, claim_C9_display_label sampleVoices (by decide)⟩

theorem displayLabel_eq_tail (n : Str) (g : SsmlVoiceGender) :
    displayLabel n g = n ++ labelTail g := by
  simp [displayLabel, labelTail, List.append_assoc]

theorem labelTail_suffix_inj (g1 g2 : SsmlVoiceGender) (n : Str)
    (h : List.IsSuffix (labelTail g1) (n ++ labelTail g2)) : g1 = g2 := by
  have h2 : List.IsSuffix (labelTail g2) (n ++ labelTail g2) :=
    List.suffix_append n (labelTail g2)
  rcases List.suffix_or_suffix_of_suffix h h2 with hh | hh <;>
    (cases g1 <;> cases g2 <;> first | rfl | exact absurd hh (by decide))

theorem displayLabel_inj (n1 n2 : Str) (g1 g2 : SsmlVoiceGender)
    (h : displayLabel n1 g1 = displayLabel n2 g2) : n1 = n2 := by
  rw [displayLabel_eq_tail, displayLabel_eq_tail] at h
  have hg : g1 = g2 :=
    labelTail_suffix_inj g1 g2 n2 (h ▸ List.suffix_append n1 (labelTail g1))
  subst hg
  exact List.append_cancel_right h

theorem dictInsert_fresh (d : List (Str × Str)) (k v : Str)
    (h : ∀ q ∈ d, q.1 ≠ k) : dictInsert d k v = d ++ [(k, v)] := by
  induction d with
  | nil => rfl
  | cons q qs ih =>
    have hq : q.1 ≠ k := h q (List.mem_cons_self q qs)
    simp [dictInsert, hq, ih fun p hp => h p (List.mem_cons_of_mem q hp)]

theorem voice_display_map_aux (pairs : List VoiceEntry) :
    ∀ d : List (Str × Str),
      ((d.map Prod.fst) ++ pairs.map Prod.snd).Nodup →
      pairs.foldl (fun d p => dictInsert d p.2 p.1) d
        = d ++ pairs.map (fun p => (p.2, p.1)) := by
  induction pairs with
  | nil => intro d _; simp
  | cons p ps ih =>
    intro d hnd
    have hkey : ∀ q ∈ d, q.1 ≠ p.2 := by
      intro q hq hcontra
      have hdisj := List.disjoint_of_nodup_append hnd
      have h1 : q.1 ∈ d.map Prod.fst := List.mem_map_of_mem Prod.fst hq
      have h2 : q.1 ∈ (p :: ps).map Prod.snd := by rw [hcontra]; simp
      exact hdisj h1 h2
    rw [List.foldl_cons]
    show List.foldl (fun d p => dictInsert d p.2 p.1) (dictInsert d p.2 p.1) ps = _
    rw [dictInsert_fresh d p.2 p.1 hkey, ih (d ++ [(p.2, p.1)]) (by simpa using hnd)]
    simp

theorem dictLookup_swapped (pairs : List VoiceEntry)
    (hnd : (pairs.map Prod.snd).Nodup) :
    ∀ e ∈ pairs, dictLookup (pairs.map fun p => (p.2, p.1)) e.2 = some e.1 := by
  induction pairs with
  | nil => intro e he; cases he
  | cons p ps ih =>
    intro e he
    simp only [List.map_cons, dictLookup]
    rcases List.mem_cons.mp he with rfl | hmem
    · simp
    · have hne : p.2 ≠ e.2 := by
        intro hcontra
        simp only [List.map_cons, List.nodup_cons] at hnd
        exact hnd.1 (hcontra ▸ List.mem_map_of_mem Prod.snd hmem)
      rw [if_neg hne]
      exact ih (by simp only [List.map_cons, List.nodup_cons] at hnd; exact hnd.2) e hmem

theorem voice_display_map_lookup (pairs : List VoiceEntry)
    (hnd : (pairs.map Prod.snd).Nodup) :
    ∀ e ∈ pairs, dictLookup (voice_display_map pairs) e.2 = some e.1 := by
  intro e he
  unfold voice_display_map
  rw [voice_display_map_aux pairs [] (by simpa using hnd)]
  simpa using dictLookup_swapped pairs hnd e he

/-- Claim C7: within every language bucket produced by a successful fetch,
when provider voice names are unique the display labels are pairwise
distinct, and looking a label up in `voice_display_map` returns exactly the
name it was built from (the reverse lookup is a bijection on the bucket). -/
theorem claim_C7_reverse_lookup (voices : List Voice)
    (hne : ∀ v ∈ voices, v.language_codes ≠ [])
    (hnames : (voices.map Voice.name).Nodup)
    (cat : VoiceCatalog) (hcat : formatVoices voices [] = some cat)
    (lang : Str) (b : List VoiceEntry) (hb : lookupLang cat lang = some b) :
    (b.map Prod.snd).Nodup ∧
      ∀ e ∈ b, dictLookup (voice_display_map b) e.2 = some e.1 := by
  obtain ⟨cat', h1, h2⟩ := formatVoices_lookup voices [] hne
  rw [hcat] at h1
  have hcc : cat = cat' := Option.some.inj h1
  subst hcc
  have h3 := h2 lang
  rw [hb] at h3
  by_cases hFe : ((voices.filter fun v => firstCode v = lang).map mkEntry) = []
  · rw [show combineBucket (lookupLang [] lang)
        ((voices.filter fun v => firstCode v = lang).map mkEntry) = none from by
      simp [lookupLang, combineBucket, hFe]] at h3
    exact absurd h3 (by simp)
  · have hbF : b = (voices.filter fun v => firstCode v = lang).map mkEntry := by
      rw [show combineBucket (lookupLang [] lang)
          ((voices.filter fun v => firstCode v = lang).map mkEntry)
            = some ((voices.filter fun v => firstCode v = lang).map mkEntry) from by
        simp [lookupLang, combineBucket, hFe]] at h3
      exact Option.some.inj h3
    subst hbF
    have hFsub : List.Sublist (voices.filter fun v => firstCode v = lang) voices :=
      List.filter_sublist voices
    have hFnames : (((voices.filter fun v => firstCode v = lang)).map Voice.name).Nodup :=
      List.Nodup.sublist (List.Sublist.map Voice.name hFsub) hnames
    have hFnd : ((voices.filter fun v => firstCode v = lang)).Nodup :=
      List.Nodup.of_map Voice.name hFnames
    have hinj := List.inj_on_of_nodup_map hFnames
    have hlabels :
        ((((voices.filter fun v => firstCode v = lang)).map mkEntry).map Prod.snd).Nodup := by
      rw [List.map_map]
      refine List.Nodup.map_on ?_ hFnd
      intro x hx y hy hxy
      have hname : x.name = y.name :=
        displayLabel_inj x.name y.name x.ssml_gender y.ssml_gender
          (by simpa [mkEntry, Function.comp] using hxy)
      exact hinj hx hy hname
    exact ⟨hlabels, voice_display_map_lookup _ hlabels⟩

/-- Witness for C7 on the "en-US" bucket of the concrete catalog. -/
theorem claim_C7_witness :
    (∀ v ∈ sampleVoices, v.language_codes ≠ []) ∧
      (sampleVoices.map Voice.name).Nodup ∧
      formatVoices sampleVoices [] = some sampleCatalog ∧
      lookupLang sampleCatalog (str "en-US") = some sampleBucket ∧
      ((sampleBucket.map Prod.snd).Nodup ∧
        ∀ e ∈ sampleBucket, dictLookup (voice_display_map sampleBucket) e.2 = some e.1) :=
  ⟨by decide, by decide, by decide, by decide,
    claim_C7_reverse_lookup sampleVoices (by decide) (by decide) sampleCatalog (by decide)
      (str "en-US") sampleBucket (by decide)⟩

theorem pyStrip_all_space (text : Str) (h : ∀ c ∈ text, isPySpace c = true) :
    pyStrip text = [] := by
  unfold pyStrip
  rw [List.dropWhile_eq_nil_iff.mpr h]
  simp

theorem generate_whitespace (provider : SynthRequest → Except Str (List Nat))
    (available_voices : VoiceCatalog) (selected_voice_name : Str) (rate pitch : ℚ)
    (input_text : Str) (h : ∀ c ∈ input_text, isPySpace c = true) :
    generate_button provider input_text available_voices selected_voice_name rate pitch
      = (HandlerOutcome.validationWarning, []) := by
  unfold generate_button
  rw [if_pos (pyStrip_all_space input_text h)]

/-- Claim C3: for every request whose text is empty or contains only
whitespace, the generate handler reports the validation failure
(`st.warning`, the handler's ValidationError outcome) and issues no provider
call. -/
theorem claim_C3_whitespace_text (provider : SynthRequest → Except Str (List Nat))
    (available_voices : VoiceCatalog) (selected_voice_name : Str) (rate pitch : ℚ)
    (input_text : Str) (h : ∀ c ∈ input_text, isPySpace c = true) :
    generate_button provider input_text available_voices selected_voice_name rate pitch
      = (HandlerOutcome.validationWarning, []) :=
  generate_whitespace provider available_voices selected_voice_name rate pitch input_text h

/-- Witness for C3 with two-space text on the concrete catalog. -/
theorem claim_C3_witness :
    (∀ c ∈ str "  ", isPySpace c = true) ∧
      generate_button (fun _ => Except.ok [0]) (str "  ") sampleCatalog
          (str "en-US-Wavenet-F") 1 0
        = (HandlerOutcome.validationWarning, []) :=
  ⟨by decide,
    claim_C3_whitespace_text (fun _ => Except.ok [0]) sampleCatalog
      (str "en-US-Wavenet-F") 1 0 (str "  ") (by decide)⟩

/-- Counterexample to claim C4 as stated: a request whose speakingRate 10
lies outside [0.25, 4.0] (and whose voiceName is in no catalog) is not
rejected locally — `synthesize_speech` issues the provider call, renders no
error, and returns the provider's bytes. -/
theorem claim_C4_counterexample :
    ¬ ((1 : ℚ)/4 ≤ 10 ∧ (10 : ℚ) ≤ 4) ∧
      (synthesize_speech (fun _ => Except.ok [0]) (str "Hello") (str "nonexistent-voice")
          10 0).calls.length = 1 ∧
      (synthesize_speech (fun _ => Except.ok [0]) (str "Hello") (str "nonexistent-voice")
          10 0).displayedError = false ∧
      (synthesize_speech (fun _ => Except.ok [0]) (str "Hello") (str "nonexistent-voice")
          10 0).audio = some [0] :=
  ⟨by norm_num, rfl, rfl, rfl⟩

/-- Claim C4 as amended: of the local preconditions, only the
empty/whitespace-text check is enforced before the provider call — the
generate handler reports the validation failure and makes no call for
whitespace-only text; `synthesize_speech` itself performs no local
validation of voiceName, speakingRate or pitch and issues exactly one
provider call for any argument values (the UI constructs voiceName from the
catalog and rate/pitch from sliders bounded to the declared ranges, so the
other violations cannot arise in the app flow). -/
theorem claim_C4_amended :
    (∀ (provider : SynthRequest → Except Str (List Nat))
        (available_voices : VoiceCatalog) (selected_voice_name : Str)
        (rate pitch : ℚ) (input_text : Str),
        (∀ c ∈ input_text, isPySpace c = true) →
        generate_button provider input_text available_voices selected_voice_name rate pitch
          = (HandlerOutcome.validationWarning, [])) ∧
      (∀ (provider : SynthRequest → Except Str (List Nat)) (text voice_name : Str)
          (rate pitch : ℚ),
        (synthesize_speech provider text voice_name rate pitch).calls
          = [mkSynthRequest text voice_name rate pitch]) := by
  constructor
  · intro provider av sv r p t h
    exact generate_whitespace provider av sv r p t h
  · intro provider text vn r p
    cases h : provider (mkSynthRequest text vn r p) <;> simp [synthesize_speech, h]

/-- Claim C5: for every valid request, `synthesize_speech` issues exactly
one provider call, whose audio configuration fixes MP3 encoding and carries
the given rate and pitch, and returns either the provider's byte sequence
exactly as returned or the caught-failure outcome — never a mutated byte
sequence and never a retry. -/
theorem claim_C5_single_call (provider : SynthRequest → Except Str (List Nat))
    (text voice_name : Str) (rate pitch : ℚ)
    (_htext : pyStrip text ≠ [])
    (_hrate : (1 : ℚ)/4 ≤ rate ∧ rate ≤ 4)
    (_hpitch : (-20 : ℚ) ≤ pitch ∧ pitch ≤ 20) :
    (synthesize_speech provider text voice_name rate pitch).calls
        = [mkSynthRequest text voice_name rate pitch] ∧
      (mkSynthRequest text voice_name rate pitch).audio_config.audio_encoding
        = AudioEncoding.MP3 ∧
      (mkSynthRequest text voice_name rate pitch).audio_config.speaking_rate = rate ∧
      (mkSynthRequest text voice_name rate pitch).audio_config.pitch = pitch ∧
      (∀ audio, provider (mkSynthRequest text voice_name rate pitch) = Except.ok audio →
        (synthesize_speech provider text voice_name rate pitch).audio = some audio) ∧
      (∀ e, provider (mkSynthRequest text voice_name rate pitch) = Except.error e →
        (synthesize_speech provider text voice_name rate pitch).audio = none) := by
  refine ⟨?_, rfl, rfl, rfl, ?_, ?_⟩
  · cases h : provider (mkSynthRequest text voice_name rate pitch) <;>
      simp [synthesize_speech, h]
  · intro audio h
    simp [synthesize_speech, h]
  · intro e h
    simp [synthesize_speech, h]

/-- Witness for C5 at the spec's example request: rate 1.0, pitch 0.0,
voice "en-US-Wavenet-F", text "Hello". -/
theorem claim_C5_witness :
    pyStrip (str "Hello") ≠ [] ∧
      ((1 : ℚ)/4 ≤ 1 ∧ (1 : ℚ) ≤ 4) ∧
      ((-20 : ℚ) ≤ 0 ∧ (0 : ℚ) ≤ 20) ∧
      ((synthesize_speech okProvider (str "Hello") (str "en-US-Wavenet-F") 1 0).calls
          = [mkSynthRequest (str "Hello") (str "en-US-Wavenet-F") 1 0] ∧
        (mkSynthRequest (str "Hello") (str "en-US-Wavenet-F") 1 0).audio_config.audio_encoding
          = AudioEncoding.MP3 ∧
        (mkSynthRequest (str "Hello") (str "en-US-Wavenet-F") 1 0).audio_config.speaking_rate = 1 ∧
        (mkSynthRequest (str "Hello") (str "en-US-Wavenet-F") 1 0).audio_config.pitch = 0 ∧
        (∀ audio,
          okProvider (mkSynthRequest (str "Hello") (str "en-US-Wavenet-F") 1 0)
            = Except.ok audio →
          (synthesize_speech okProvider (str "Hello") (str "en-US-Wavenet-F") 1 0).audio
            = some audio) ∧
        (∀ e,
          okProvider (mkSynthRequest (str "Hello") (str "en-US-Wavenet-F") 1 0)
            = Except.error e →
          (synthesize_speech okProvider (str "Hello") (str "en-US-Wavenet-F") 1 0).audio
            = none)) :=
  ⟨by decide, by norm_num, by norm_num,
    claim_C5_single_call okProvider (str "Hello")
      (str "en-US-Wavenet-F") 1 0 (by decide) (by norm_num) (by norm_num)⟩

theorem fetchSeq_cache_hit (c : VoiceCatalog) (ps : List (Except Str (List Voice))) :
    fetchSeq (some c) ps = (ps.map fun _ => c, 0) := by
  induction ps with
  | nil => rfl
  | cons p ps ih => simp [fetchSeq, fetchCached, ih]

/-- Claim C8: after one successful fetch, every subsequent call in the same
process — whatever the provider would now answer — returns the identical
catalog without contacting the provider again (memoization for the process
lifetime, no invalidation). -/
theorem claim_C8_memoization (voices : List Voice) (cat : VoiceCatalog)
    (hcat : formatVoices voices [] = some cat)
    (ps : List (Except Str (List Voice))) :
    (fetchCached none (Except.ok voices)).result = cat ∧
      (fetchCached none (Except.ok voices)).contactedProvider = true ∧
      fetchSeq (fetchCached none (Except.ok voices)).newCache ps
        = (ps.map fun _ => cat, 0) := by
  have hres : get_voices (Except.ok voices) = { catalog := cat, displayedError := none } := by
    simp [get_voices, hcat]
  refine ⟨?_, rfl, ?_⟩
  · simp [fetchCached, hres]
  · have hnew : (fetchCached none (Except.ok voices)).newCache = some cat := by
      simp [fetchCached, hres]
    rw [hnew, fetchSeq_cache_hit]

/-- Witness for C8: a successful fetch of the concrete response followed by
two calls (one while the provider is down, one with a changed catalog) that
both return the memoized catalog with zero further provider contacts. -/
theorem claim_C8_witness :
    formatVoices sampleVoices [] = some sampleCatalog ∧
      ((fetchCached none (Except.ok sampleVoices)).result = sampleCatalog ∧
        (fetchCached none (Except.ok sampleVoices)).contactedProvider = true ∧
        fetchSeq (fetchCached none (Except.ok sampleVoices)).newCache
            [Except.error (str "provider down"), Except.ok []]
          = ([sampleCatalog, sampleCatalog], 0)) :=
  ⟨by decide,
    claim_C8_memoization sampleVoices sampleCatalog (by decide)
      [Except.error (str "provider down"), Except.ok []]⟩

end TTS
